import Mathlib

/-!
Verification of the audience import/validation pipeline and the status
mutation operations of `AudienceTableSection.tsx`.

The embedding models spreadsheet cells as `String` (the empty string plays
the role of a missing/`undefined` cell, which is falsy in the source
language exactly like `""`).  The nondeterministic parts of the code are
made explicit parameters: the per-accepted-row identifier draw
(`Math.random().toString(36).substr(2, 5)`) becomes a stream
`g : Nat → String` indexed by the number of rows accepted so far, and the
creation timestamp (`standardizeCreatedAt(new Date())`) becomes a plain
string parameter `now`.
-/

/-- JavaScript `String.prototype.trim`: drop leading and trailing
whitespace. -/
def jsTrim (s : String) : String :=
  String.mk (((s.toList.dropWhile Char.isWhitespace).reverse.dropWhile Char.isWhitespace).reverse)

/-- JavaScript `String.prototype.toLowerCase` (ASCII fragment). -/
def jsToLower (s : String) : String :=
  String.mk (s.toList.map Char.toLower)

/-- Does `pat` match at the head of the second list? -/
def leadMatch : List Char → List Char → Bool
  | [], _ => true
  | _ :: _, [] => false
  | p :: ps, c :: cs => p == c && leadMatch ps cs

/-- Does `pat` occur contiguously anywhere in the list? -/
def occursIn (pat : List Char) : List Char → Bool
  | [] => leadMatch pat []
  | c :: cs => leadMatch pat (c :: cs) || occursIn pat cs

/-- JavaScript `String.prototype.includes`. -/
def strIncludes (s pat : String) : Bool :=
  occursIn pat.toList s.toList

/-- `validateName` from the source: a non-empty string whose trimmed form
has between 1 and 100 characters. -/
def validateName (name : String) : Bool :=
  if name = "" then false
  else decide (1 ≤ (jsTrim name).toList.length ∧ (jsTrim name).toList.length ≤ 100)

/-- The cleaning step of `validatePhoneNumber`: remove whitespace, then
remove every character that is neither a digit nor `+`. -/
def cleanPhone (phone : String) : List Char :=
  (phone.toList.filter (fun c => !c.isWhitespace)).filter (fun c => c.isDigit || c == '+')

/-- The regular expression `^(\+?\d{10,15})$` of `validatePhoneNumber`. -/
def phonePattern (l : List Char) : Bool :=
  let d := if l.head? = some '+' then l.tail else l
  d.all Char.isDigit && decide (10 ≤ d.length) && decide (d.length ≤ 15)

/-- `validatePhoneNumber` from the source. -/
def validatePhoneNumber (phone : String) : Bool :=
  if phone = "" then false
  else phonePattern (cleanPhone phone)

/-- `validateHeaders` from the source: exactly two cells which, lowercased
and trimmed, include `name` and `phone`. -/
def validateHeaders (headers : List String) : Bool :=
  headers.length == 2 &&
    (headers.map (fun h => jsTrim (jsToLower h))).contains "name" &&
    (headers.map (fun h => jsTrim (jsToLower h))).contains "phone"

/-- The `startsWith` check against the 962 country code, on the digit list. -/
def startsWith962 : List Char → Bool
  | '9' :: '6' :: '2' :: _ => true
  | _ => false

/-- The `startsWith` check against a leading zero, on the digit list. -/
def hasLeadingZero : List Char → Bool
  | '0' :: _ => true
  | _ => false

/-- The branch logic of `standardizePhoneNumber`, applied to the digit
list: keep a `962`-led number, turn a leading `0` into `962`, otherwise
prepend `962`. -/
def standardizeDigits (digits : List Char) : List Char :=
  if startsWith962 digits then digits
  else if hasLeadingZero digits then '9' :: '6' :: '2' :: digits.tail
  else '9' :: '6' :: '2' :: digits

/-- `standardizePhoneNumber` from the source: strip non-digits, then apply
the `962` country-prefix canonicalization. -/
def standardizePhoneNumber (phone : String) : String :=
  String.mk (standardizeDigits (phone.toList.filter Char.isDigit))

lemma startsWith962_cons (x : List Char) :
    startsWith962 ('9' :: '6' :: '2' :: x) = true := rfl

lemma standardizeDigits_of_starts (l : List Char) (h : startsWith962 l = true) :
    standardizeDigits l = l := by
  unfold standardizeDigits
  rw [if_pos h]

lemma startsWith962_standardizeDigits (digits : List Char) :
    startsWith962 (standardizeDigits digits) = true := by
  unfold standardizeDigits
  split_ifs with h1 h2
  · exact h1
  · exact startsWith962_cons _
  · exact startsWith962_cons _

lemma all_tail {p : Char → Bool} {l : List Char} (h : l.all p = true) :
    l.tail.all p = true := by
  cases l with
  | nil => exact h
  | cons a l => simp only [List.all_cons, Bool.and_eq_true] at h; exact h.2

lemma standardizeDigits_all_digits {digits : List Char}
    (h : digits.all Char.isDigit = true) :
    (standardizeDigits digits).all Char.isDigit = true := by
  unfold standardizeDigits
  split_ifs with h1 h2
  · exact h
  · simp only [List.all_cons, Bool.and_eq_true]
    exact ⟨by decide, by decide, by decide, all_tail h⟩
  · simp only [List.all_cons, Bool.and_eq_true]
    exact ⟨by decide, by decide, by decide, h⟩

lemma filter_isDigit_all (l : List Char) :
    (l.filter Char.isDigit).all Char.isDigit = true := by
  simp only [List.all_eq_true]
  intro x hx
  exact (List.mem_filter.mp hx).2

lemma filter_eq_self_of_all {l : List Char} (h : l.all Char.isDigit = true) :
    l.filter Char.isDigit = l := by
  rw [List.filter_eq_self]
  intro a ha
  exact (List.all_eq_true.mp h) a ha

/-- Claim C5: phone normalization is idempotent —
`standardizePhoneNumber (standardizePhoneNumber p) = standardizePhoneNumber p`
for every input string. -/
theorem standardizePhoneNumber_idempotent (p : String) :
    standardizePhoneNumber (standardizePhoneNumber p) = standardizePhoneNumber p := by
  unfold standardizePhoneNumber
  have h1 : (String.mk (standardizeDigits (p.toList.filter Char.isDigit))).toList
      = standardizeDigits (p.toList.filter Char.isDigit) := rfl
  rw [h1]
  have hall : (standardizeDigits (p.toList.filter Char.isDigit)).all Char.isDigit = true :=
    standardizeDigits_all_digits (filter_isDigit_all _)
  rw [filter_eq_self_of_all hall]
  rw [standardizeDigits_of_starts _ (startsWith962_standardizeDigits _)]

/-- The `AudienceData` record of the source (statuses are the string
literals of the union type). -/
structure AudienceData where
  identifier : String
  name : String
  phone : String
  createdAt : String
  status : String
  tries : String
  result : String
deriving DecidableEq

/-- The `ValidationError` record of the source. -/
structure ValidationError where
  row : Nat
  field : String
  value : String
  error : String
  suggestion : String
deriving DecidableEq

/-- `getErrorSuggestion` from the source. -/
def getErrorSuggestion (field value error : String) : String :=
  if field = "phone" then
    if strIncludes error "required" then "Provide a valid phone number"
    else if strIncludes error "format" then "Use format: +962771234567 or 0771234567 (10-15 digits)"
    else "Please correct this field according to the requirements"
  else if field = "name" then
    if strIncludes error "required" then "Enter a contact name (1-100 characters)"
    else if strIncludes error "long" then "Name must be 100 characters or less"
    else "Please correct this field according to the requirements"
  else "Please correct this field according to the requirements"

/-- The name-error message choice of the per-row loop. -/
def nameErrorMessage (nameValue : String) : String :=
  if nameValue = "" ∨ jsTrim nameValue = "" then "Name is required"
  else if 100 < nameValue.toList.length then "Name is too long (max 100 characters)"
  else "Invalid name format"

/-- The `ValidationError` pushed for a failing name cell. -/
def mkNameError (rowNumber : Nat) (nameValue : String) : ValidationError :=
  { row := rowNumber
    field := "name"
    value := if nameValue ≠ "" then nameValue else "(empty)"
    error := nameErrorMessage nameValue
    suggestion := getErrorSuggestion "name" (if nameValue ≠ "" then nameValue else "")
      (nameErrorMessage nameValue) }

/-- The phone-error message choice of the per-row loop. -/
def phoneErrorMessage (phoneValue : String) : String :=
  if phoneValue = "" ∨ jsTrim phoneValue = "" then "Phone number is required"
  else "Phone number must be in valid format (10-15 digits)"

/-- The `ValidationError` pushed for a failing phone cell. -/
def mkPhoneError (rowNumber : Nat) (phoneValue : String) : ValidationError :=
  { row := rowNumber
    field := "phone"
    value := if phoneValue ≠ "" then phoneValue else "(empty)"
    error := phoneErrorMessage phoneValue
    suggestion := getErrorSuggestion "phone" (if phoneValue ≠ "" then phoneValue else "")
      (phoneErrorMessage phoneValue) }

/-- The blank-row test: every cell empty or whitespace-only. -/
def isBlankRow (row : List String) : Bool :=
  row.all (fun cell => cell == "" || jsTrim cell == "")

/-- The deduplication key: lowercase-trimmed name, a `|` separator, and the
standardized phone number. -/
def contactKey (nameValue phoneValue : String) : String :=
  jsToLower (jsTrim nameValue) ++ "|" ++ standardizePhoneNumber phoneValue

/-- The accepted `AudienceData` built for a row that passes validation. -/
def mkRecord (ident now nameValue phoneValue : String) : AudienceData :=
  { identifier := ident
    name := jsTrim nameValue
    phone := standardizePhoneNumber phoneValue
    createdAt := now
    status := "Pending"
    tries := "0"
    result := "" }

/-- Mutable state of the per-row loop of `processFile`: the seen
deduplication keys, the duplicate counter, and the `errors` and `valid`
accumulators. -/
structure RowState where
  seen : List String
  duplicates : Nat
  errors : List ValidationError
  valid : List AudienceData
deriving DecidableEq

/-- Cell access with the JS destructuring default: a missing cell behaves
like the empty string. -/
def cellAt (row : List String) (i : Nat) : String :=
  row.getD i ""

/-- The validation half of one loop iteration: push the field errors of
the row, or append the accepted record when both fields validate. -/
def validatePart (g : Nat → String) (now : String) (st : RowState) (rowNumber : Nat)
    (nameValue phoneValue : String) : RowState :=
  if validateName nameValue && validatePhoneNumber phoneValue then
    { st with valid := st.valid ++ [mkRecord (g st.valid.length) now nameValue phoneValue] }
  else
    { st with errors := st.errors ++
        ((if validateName nameValue then [] else [mkNameError rowNumber nameValue]) ++
          (if validatePhoneNumber phoneValue then [] else [mkPhoneError rowNumber phoneValue])) }

/-- One iteration of the data-row loop of `processFile`: blank-row skip,
duplicate detection (only when both cells are truthy), then field
validation. -/
def processRow (g : Nat → String) (now : String) (st : RowState) (rowNumber : Nat)
    (row : List String) : RowState :=
  if isBlankRow row then st
  else
    let nameValue := cellAt row 0
    let phoneValue := cellAt row 1
    if nameValue ≠ "" ∧ phoneValue ≠ "" then
      if st.seen.contains (contactKey nameValue phoneValue) then
        { st with duplicates := st.duplicates + 1 }
      else
        validatePart g now { st with seen := contactKey nameValue phoneValue :: st.seen }
          rowNumber nameValue phoneValue
    else
      validatePart g now st rowNumber nameValue phoneValue

/-- The data-row loop of `processFile`, threading the row number. -/
def processRows (g : Nat → String) (now : String) (st : RowState) (rowNumber : Nat) :
    List (List String) → RowState
  | [] => st
  | row :: rest => processRows g now (processRow g now st rowNumber row) (rowNumber + 1) rest

/-- The two fatal outcomes of `processFile`: the empty-file guard
(`rawData.length < 2`) and the malformed-header guard. -/
inductive ImportFailure where
  | emptyFile
  | malformedHeader
deriving DecidableEq

/-- What one import run returns: accepted records, collected validation
errors, and the duplicate counter. -/
structure ImportResult where
  accepted : List AudienceData
  errors : List ValidationError
  duplicatesRemoved : Nat
deriving DecidableEq

/-- `processFile` from the source, after spreadsheet parsing: the
empty-file guard, the header check, then the per-row loop starting at row
number 2. -/
def processFile (g : Nat → String) (now : String) (rawData : List (List String)) :
    Except ImportFailure ImportResult :=
  if rawData.length < 2 then .error .emptyFile
  else if !validateHeaders (rawData.headD []) then .error .malformedHeader
  else
    let st := processRows g now ⟨[], 0, [], []⟩ 2 rawData.tail
    .ok ⟨st.valid, st.errors, st.duplicates⟩

/-- The four mutually exclusive fates of a data row in the import loop. -/
inductive RowOutcome where
  | blank
  | duplicate
  | errored
  | accepted
deriving DecidableEq

/-- Classification of one data row against the seen-key set, mirroring the
branch structure of `processRow`. -/
def rowOutcome (seen : List String) (row : List String) : RowOutcome :=
  if isBlankRow row then .blank
  else
    let nameValue := cellAt row 0
    let phoneValue := cellAt row 1
    if nameValue ≠ "" ∧ phoneValue ≠ "" then
      if seen.contains (contactKey nameValue phoneValue) then .duplicate
      else if validateName nameValue && validatePhoneNumber phoneValue then .accepted
      else .errored
    else if validateName nameValue && validatePhoneNumber phoneValue then .accepted
    else .errored

/-- How one data row updates the seen-key set, mirroring `processRow`. -/
def seenAfter (seen : List String) (row : List String) : List String :=
  if isBlankRow row then seen
  else
    let nameValue := cellAt row 0
    let phoneValue := cellAt row 1
    if nameValue ≠ "" ∧ phoneValue ≠ "" then
      if seen.contains (contactKey nameValue phoneValue) then seen
      else contactKey nameValue phoneValue :: seen
    else seen

/-- The outcome of every data row, threading the seen-key set. -/
def outcomes (seen : List String) : List (List String) → List RowOutcome
  | [] => []
  | row :: rest => rowOutcome seen row :: outcomes (seenAfter seen row) rest

/-- Number of rows with a given outcome. -/
def countOutcome (o : RowOutcome) : List RowOutcome → Nat
  | [] => 0
  | x :: xs => (if x = o then 1 else 0) + countOutcome o xs

lemma countOutcome_partition (l : List RowOutcome) :
    countOutcome .accepted l + countOutcome .errored l +
      countOutcome .duplicate l + countOutcome .blank l = l.length := by
  induction l with
  | nil => rfl
  | cons x xs ih => cases x <;> simp [countOutcome] <;> omega

lemma validateName_ne_empty {n : String} (h : validateName n = true) : n ≠ "" := by
  intro he
  subst he
  simp [validateName] at h

lemma validatePhoneNumber_ne_empty {p : String} (h : validatePhoneNumber p = true) : p ≠ "" := by
  intro he
  subst he
  simp [validatePhoneNumber] at h

lemma validatePart_accepted {g : Nat → String} {now : String} {st : RowState} {k : Nat}
    {n p : String} (hv : (validateName n && validatePhoneNumber p) = true) :
    validatePart g now st k n p
      = { st with valid := st.valid ++ [mkRecord (g st.valid.length) now n p] } := by
  unfold validatePart
  rw [if_pos hv]

lemma validatePart_errored {g : Nat → String} {now : String} {st : RowState} {k : Nat}
    {n p : String} (hv : (validateName n && validatePhoneNumber p) = false) :
    validatePart g now st k n p
      = { st with errors := st.errors ++
            ((if validateName n then [] else [mkNameError k n]) ++
              (if validatePhoneNumber p then [] else [mkPhoneError k p])) } := by
  unfold validatePart
  rw [if_neg (by simp [hv])]

lemma processRow_eq_of_blank {g : Nat → String} {now : String} {st : RowState} {k : Nat}
    {row : List String} (h : isBlankRow row = true) :
    processRow g now st k row = st := by
  unfold processRow
  rw [if_pos h]

lemma processRow_eq_of_dup {g : Nat → String} {now : String} {st : RowState} {k : Nat}
    {row : List String} (hb : isBlankRow row = false)
    (ht : cellAt row 0 ≠ "" ∧ cellAt row 1 ≠ "")
    (hc : st.seen.contains (contactKey (cellAt row 0) (cellAt row 1)) = true) :
    processRow g now st k row = { st with duplicates := st.duplicates + 1 } := by
  unfold processRow
  rw [if_neg (by simp [hb])]
  dsimp only
  rw [if_pos ht, if_pos hc]

lemma processRow_eq_of_fresh {g : Nat → String} {now : String} {st : RowState} {k : Nat}
    {row : List String} (hb : isBlankRow row = false)
    (ht : cellAt row 0 ≠ "" ∧ cellAt row 1 ≠ "")
    (hc : st.seen.contains (contactKey (cellAt row 0) (cellAt row 1)) = false) :
    processRow g now st k row
      = validatePart g now
          { st with seen := contactKey (cellAt row 0) (cellAt row 1) :: st.seen }
          k (cellAt row 0) (cellAt row 1) := by
  unfold processRow
  rw [if_neg (by simp [hb])]
  dsimp only
  rw [if_pos ht, if_neg (by simp only [hc]; decide)]

lemma processRow_eq_of_falsy {g : Nat → String} {now : String} {st : RowState} {k : Nat}
    {row : List String} (hb : isBlankRow row = false)
    (ht : ¬(cellAt row 0 ≠ "" ∧ cellAt row 1 ≠ "")) :
    processRow g now st k row = validatePart g now st k (cellAt row 0) (cellAt row 1) := by
  unfold processRow
  rw [if_neg (by simp [hb])]
  dsimp only
  rw [if_neg ht]

lemma rowOutcome_of_blank {seen row : List String} (h : isBlankRow row = true) :
    rowOutcome seen row = .blank := by
  unfold rowOutcome
  rw [if_pos h]

lemma seenAfter_of_blank {seen row : List String} (h : isBlankRow row = true) :
    seenAfter seen row = seen := by
  unfold seenAfter
  rw [if_pos h]

lemma rowOutcome_of_dup {seen row : List String} (hb : isBlankRow row = false)
    (ht : cellAt row 0 ≠ "" ∧ cellAt row 1 ≠ "")
    (hc : seen.contains (contactKey (cellAt row 0) (cellAt row 1)) = true) :
    rowOutcome seen row = .duplicate := by
  unfold rowOutcome
  rw [if_neg (by simp [hb])]
  dsimp only
  rw [if_pos ht, if_pos hc]

lemma seenAfter_of_dup {seen row : List String} (hb : isBlankRow row = false)
    (ht : cellAt row 0 ≠ "" ∧ cellAt row 1 ≠ "")
    (hc : seen.contains (contactKey (cellAt row 0) (cellAt row 1)) = true) :
    seenAfter seen row = seen := by
  unfold seenAfter
  rw [if_neg (by simp [hb])]
  dsimp only
  rw [if_pos ht, if_pos hc]

lemma rowOutcome_of_fresh {seen row : List String} (hb : isBlankRow row = false)
    (ht : cellAt row 0 ≠ "" ∧ cellAt row 1 ≠ "")
    (hc : seen.contains (contactKey (cellAt row 0) (cellAt row 1)) = false) :
    rowOutcome seen row
      = (if validateName (cellAt row 0) && validatePhoneNumber (cellAt row 1)
          then RowOutcome.accepted else RowOutcome.errored) := by
  unfold rowOutcome
  rw [if_neg (by simp [hb])]
  dsimp only
  rw [if_pos ht, if_neg (by simp only [hc]; decide)]

lemma seenAfter_of_fresh {seen row : List String} (hb : isBlankRow row = false)
    (ht : cellAt row 0 ≠ "" ∧ cellAt row 1 ≠ "")
    (hc : seen.contains (contactKey (cellAt row 0) (cellAt row 1)) = false) :
    seenAfter seen row = contactKey (cellAt row 0) (cellAt row 1) :: seen := by
  unfold seenAfter
  rw [if_neg (by simp [hb])]
  dsimp only
  rw [if_pos ht, if_neg (by simp only [hc]; decide)]

lemma rowOutcome_of_falsy {seen row : List String} (hb : isBlankRow row = false)
    (ht : ¬(cellAt row 0 ≠ "" ∧ cellAt row 1 ≠ "")) :
    rowOutcome seen row
      = (if validateName (cellAt row 0) && validatePhoneNumber (cellAt row 1)
          then RowOutcome.accepted else RowOutcome.errored) := by
  unfold rowOutcome
  rw [if_neg (by simp [hb])]
  dsimp only
  rw [if_neg ht]

lemma seenAfter_of_falsy {seen row : List String} (hb : isBlankRow row = false)
    (ht : ¬(cellAt row 0 ≠ "" ∧ cellAt row 1 ≠ "")) :
    seenAfter seen row = seen := by
  unfold seenAfter
  rw [if_neg (by simp [hb])]
  dsimp only
  rw [if_neg ht]

lemma falsy_not_accepted {row : List String}
    (ht : ¬(cellAt row 0 ≠ "" ∧ cellAt row 1 ≠ "")) :
    (validateName (cellAt row 0) && validatePhoneNumber (cellAt row 1)) = false := by
  by_contra h
  have hv : (validateName (cellAt row 0) && validatePhoneNumber (cellAt row 1)) = true := by
    revert h
    cases validateName (cellAt row 0) && validatePhoneNumber (cellAt row 1) <;> simp
  rw [Bool.and_eq_true] at hv
  exact ht ⟨validateName_ne_empty hv.1, validatePhoneNumber_ne_empty hv.2⟩

lemma processRow_effect (g : Nat → String) (now : String) (st : RowState) (k : Nat)
    (row : List String) :
    (processRow g now st k row).seen = seenAfter st.seen row ∧
    (processRow g now st k row).valid.length
      = st.valid.length + countOutcome .accepted [rowOutcome st.seen row] ∧
    (processRow g now st k row).duplicates
      = st.duplicates + countOutcome .duplicate [rowOutcome st.seen row] ∧
    st.errors.length + countOutcome .errored [rowOutcome st.seen row]
      ≤ (processRow g now st k row).errors.length ∧
    (processRow g now st k row).errors.length
      ≤ st.errors.length + 2 * countOutcome .errored [rowOutcome st.seen row] := by
  by_cases hb : isBlankRow row = true
  · rw [processRow_eq_of_blank hb, rowOutcome_of_blank hb, seenAfter_of_blank hb]
    simp [countOutcome]
  · have hb2 : isBlankRow row = false := by
      revert hb; cases isBlankRow row <;> simp
    by_cases ht : cellAt row 0 ≠ "" ∧ cellAt row 1 ≠ ""
    · by_cases hc : st.seen.contains (contactKey (cellAt row 0) (cellAt row 1)) = true
      · rw [processRow_eq_of_dup hb2 ht hc, rowOutcome_of_dup hb2 ht hc,
          seenAfter_of_dup hb2 ht hc]
        simp [countOutcome]
      · have hc2 : st.seen.contains (contactKey (cellAt row 0) (cellAt row 1)) = false := by
          revert hc
          cases st.seen.contains (contactKey (cellAt row 0) (cellAt row 1)) <;> simp
        rw [processRow_eq_of_fresh hb2 ht hc2, rowOutcome_of_fresh hb2 ht hc2,
          seenAfter_of_fresh hb2 ht hc2]
        by_cases hv : (validateName (cellAt row 0) && validatePhoneNumber (cellAt row 1)) = true
        · rw [validatePart_accepted hv, if_pos hv]
          simp [countOutcome]
        · have hv2 : (validateName (cellAt row 0) && validatePhoneNumber (cellAt row 1)) = false := by
            revert hv
            cases validateName (cellAt row 0) && validatePhoneNumber (cellAt row 1) <;> simp
          have hneg : ¬((validateName (cellAt row 0) && validatePhoneNumber (cellAt row 1)) = true) := by
            simp only [hv2]
            decide
          rw [validatePart_errored hv2, if_neg hneg]
          rw [Bool.and_eq_false_iff] at hv2
          simp only [countOutcome, List.length_append]
          rcases hv2 with hn | hp
          · cases hvp : validatePhoneNumber (cellAt row 1) <;> simp [hn, hvp]
          · cases hvn : validateName (cellAt row 0) <;> simp [hp, hvn]
    · have hv2 := falsy_not_accepted ht
      have hneg : ¬((validateName (cellAt row 0) && validatePhoneNumber (cellAt row 1)) = true) := by
        simp only [hv2]
        decide
      rw [processRow_eq_of_falsy hb2 ht, rowOutcome_of_falsy hb2 ht,
        seenAfter_of_falsy hb2 ht, validatePart_errored hv2, if_neg hneg]
      rw [Bool.and_eq_false_iff] at hv2
      simp only [countOutcome, List.length_append]
      rcases hv2 with hn | hp
      · cases hvp : validatePhoneNumber (cellAt row 1) <;> simp [hn, hvp]
      · cases hvn : validateName (cellAt row 0) <;> simp [hp, hvn]

lemma processRows_spec (g : Nat → String) (now : String) :
    ∀ (rows : List (List String)) (st : RowState) (k : Nat),
      (processRows g now st k rows).valid.length
          = st.valid.length + countOutcome .accepted (outcomes st.seen rows) ∧
      (processRows g now st k rows).duplicates
          = st.duplicates + countOutcome .duplicate (outcomes st.seen rows) ∧
      st.errors.length + countOutcome .errored (outcomes st.seen rows)
          ≤ (processRows g now st k rows).errors.length ∧
      (processRows g now st k rows).errors.length
          ≤ st.errors.length + 2 * countOutcome .errored (outcomes st.seen rows) := by
  intro rows
  induction rows with
  | nil =>
    intro st k
    simp [processRows, outcomes, countOutcome]
  | cons row rest ih =>
    intro st k
    obtain ⟨hs, hv1, hd1, he1, he2⟩ := processRow_effect g now st k row
    obtain ⟨r1, r2, r3, r4⟩ := ih (processRow g now st k row) (k + 1)
    rw [hs] at r1 r2 r3 r4
    simp only [countOutcome, Nat.add_zero] at hv1 hd1 he1 he2
    simp only [processRows, outcomes, countOutcome]
    refine ⟨?_, ?_, ?_, ?_⟩ <;> omega

lemma outcomes_length (seen : List String) (l : List (List String)) :
    (outcomes seen l).length = l.length := by
  induction l generalizing seen with
  | nil => rfl
  | cons r rs ih => simp [outcomes, ih]

/-- Extract the successful result of an import, with a fallback. -/
def okOr (d : ImportResult) : Except ImportFailure ImportResult → ImportResult
  | .ok r => r
  | .error _ => d

/-- The empty import result, used as the `okOr` fallback. -/
def emptyResult : ImportResult := ⟨[], [], 0⟩

/-- A degenerate identifier stream that repeats one value, one possible
behaviour of the unchecked random draw. -/
def gConst : Nat → String := fun _ => "abcde"

/-- Claim C1: with a valid header, the import loop classifies every data
row into exactly one of the four outcomes — blank-skipped, duplicate,
errored (at least one and at most two `ValidationError`s), or accepted —
and the four outcome counts sum to the number of data rows, with the
accepted count and the duplicate count agreeing with what the import
returns. -/
theorem import_row_partition (g : Nat → String) (now : String)
    (rawData : List (List String)) (res : ImportResult)
    (h : processFile g now rawData = .ok res) :
    res.accepted.length + countOutcome .errored (outcomes [] rawData.tail)
        + res.duplicatesRemoved + countOutcome .blank (outcomes [] rawData.tail)
      = rawData.tail.length ∧
    res.accepted.length = countOutcome .accepted (outcomes [] rawData.tail) ∧
    res.duplicatesRemoved = countOutcome .duplicate (outcomes [] rawData.tail) ∧
    countOutcome .errored (outcomes [] rawData.tail) ≤ res.errors.length ∧
    res.errors.length ≤ 2 * countOutcome .errored (outcomes [] rawData.tail) := by
  unfold processFile at h
  split_ifs at h with h1 h2
  obtain ⟨hv, hd, he1, he2⟩ := processRows_spec g now rawData.tail ⟨[], 0, [], []⟩ 2
  injection h with h
  subst h
  have hpart := countOutcome_partition (outcomes ([] : List String) rawData.tail)
  have hlen := outcomes_length ([] : List String) rawData.tail
  dsimp only at hv hd he1 he2 ⊢
  simp only [List.length_nil] at hv hd he1 he2
  refine ⟨?_, ?_, ?_, ?_, ?_⟩ <;> omega

/-- Witness input for the partition theorem: one accepted row, one
duplicate, one blank row, and one errored row. -/
def tblC1 : List (List String) :=
  [["name", "phone"], ["Ana", "0791234567"], ["Ana", "0791234567"], ["", ""], ["Bob", "12"]]

/-- The result of importing the witness table. -/
def resC1 : ImportResult := okOr emptyResult (processFile gConst "t" tblC1)

theorem import_row_partition_witness :
    processFile gConst "t" tblC1 = .ok resC1 ∧
    resC1.accepted.length + countOutcome .errored (outcomes [] tblC1.tail)
        + resC1.duplicatesRemoved + countOutcome .blank (outcomes [] tblC1.tail)
      = tblC1.tail.length :=
  ⟨rfl, (import_row_partition gConst "t" tblC1 resC1 rfl).1⟩

/-- The identifier draws consumed by rows `start, start+1, …` of a batch. -/
def idRange (g : Nat → String) (start : Nat) : Nat → List String
  | 0 => []
  | n + 1 => g start :: idRange g (start + 1) n

lemma idRange_mem {g : Nat → String} {x : String} :
    ∀ {n s : Nat}, x ∈ idRange g s n → ∃ j, s ≤ j ∧ j < s + n ∧ x = g j := by
  intro n
  induction n with
  | zero =>
    intro s h
    simp [idRange] at h
  | succ m ih =>
    intro s h
    simp only [idRange, List.mem_cons] at h
    rcases h with h | h
    · exact ⟨s, Nat.le_refl s, by omega, h⟩
    · obtain ⟨j, h1, h2, h3⟩ := ih h
      exact ⟨j, by omega, by omega, h3⟩

lemma idRange_nodup {g : Nat → String} (hinj : ∀ m n, g m = g n → m = n) :
    ∀ (n s : Nat), (idRange g s n).Nodup := by
  intro n
  induction n with
  | zero =>
    intro s
    simp [idRange]
  | succ m ih =>
    intro s
    simp only [idRange, List.nodup_cons]
    refine ⟨?_, ih (s + 1)⟩
    intro hmem
    obtain ⟨j, h1, h2, h3⟩ := idRange_mem hmem
    have := hinj s j h3
    omega

lemma processRow_valid (g : Nat → String) (now : String) (st : RowState) (k : Nat)
    (row : List String) :
    (processRow g now st k row).valid = st.valid ∨
    (processRow g now st k row).valid
      = st.valid ++ [mkRecord (g st.valid.length) now (cellAt row 0) (cellAt row 1)] := by
  unfold processRow validatePart
  dsimp only
  split_ifs <;> simp

lemma processRows_ids (g : Nat → String) (now : String) :
    ∀ (rows : List (List String)) (st : RowState) (k : Nat),
      ∃ n, (processRows g now st k rows).valid.map (fun a => a.identifier)
        = st.valid.map (fun a => a.identifier) ++ idRange g st.valid.length n := by
  intro rows
  induction rows with
  | nil =>
    intro st k
    exact ⟨0, by simp [processRows, idRange]⟩
  | cons row rest ih =>
    intro st k
    obtain h | h := processRow_valid g now st k row
    · obtain ⟨n, hn⟩ := ih (processRow g now st k row) (k + 1)
      rw [h] at hn
      exact ⟨n, by simpa [processRows] using hn⟩
    · obtain ⟨n, hn⟩ := ih (processRow g now st k row) (k + 1)
      rw [h] at hn
      refine ⟨n + 1, ?_⟩
      simp only [processRows]
      rw [hn]
      simp [idRange, mkRecord, List.append_assoc]

/-- Claim C2 counterexample: the pipeline draws identifiers from an
unchecked random stream, so a stream that repeats a value yields a batch
whose accepted records share one identifier — importing two distinct valid
rows under the constant stream produces identifiers that are not pairwise
distinct. -/
theorem identifier_collision_possible :
    (okOr emptyResult (processFile gConst "t"
        [["name", "phone"], ["Ana", "0791234567"], ["Bob", "0785555555"]])).accepted.map
      (fun a => a.identifier) = ["abcde", "abcde"] ∧
    ¬ ((okOr emptyResult (processFile gConst "t"
        [["name", "phone"], ["Ana", "0791234567"], ["Bob", "0785555555"]])).accepted.map
      (fun a => a.identifier)).Nodup := by
  constructor
  · rfl
  · decide

/-- Claim C2 (amended): the accepted records receive successive outputs of
the identifier stream; whenever that stream is injective and avoids every
identifier already present in the existing audience, the identifiers of
the accepted batch are pairwise distinct and disjoint from the existing
audience.  (The code itself draws the stream from `Math.random` with no
collision check, so the unconditional claim fails; see the
counterexample.) -/
theorem import_ids_unique_of_fresh (g : Nat → String) (now : String)
    (rawData : List (List String)) (res : ImportResult) (existingIds : List String)
    (hinj : ∀ m n, g m = g n → m = n)
    (hfresh : ∀ n, g n ∉ existingIds)
    (h : processFile g now rawData = .ok res) :
    (res.accepted.map (fun a => a.identifier)).Nodup ∧
      ∀ a ∈ res.accepted, a.identifier ∉ existingIds := by
  unfold processFile at h
  split_ifs at h with h1 h2
  obtain ⟨n, hn⟩ := processRows_ids g now rawData.tail ⟨[], 0, [], []⟩ 2
  injection h with h
  subst h
  dsimp only at hn ⊢
  simp only [List.map_nil, List.length_nil, List.nil_append] at hn
  constructor
  · rw [hn]
    exact idRange_nodup hinj n 0
  · intro a ha hmem
    have hin : a.identifier ∈ idRange g 0 n := by
      rw [← hn]
      exact List.mem_map_of_mem _ ha
    obtain ⟨j, _, _, hj⟩ := idRange_mem hin
    exact hfresh j (hj ▸ hmem)

/-- An injective identifier stream for the uniqueness witness. -/
def gInj : Nat → String := fun n => String.mk (List.replicate (n + 1) 'a')

lemma gInj_injective : ∀ m n, gInj m = gInj n → m = n := by
  intro m n h
  have h2 : List.replicate (m + 1) 'a' = List.replicate (n + 1) 'a' := congrArg String.toList h
  have h3 := congrArg List.length h2
  simp at h3
  exact h3

/-- The result of importing the uniqueness witness table. -/
def resC2 : ImportResult :=
  okOr emptyResult (processFile gInj "t" [["name", "phone"], ["Ana", "0791234567"], ["Bob", "0785555555"]])

theorem import_ids_unique_of_fresh_witness :
    (resC2.accepted.map (fun a => a.identifier)).Nodup ∧
      ∀ a ∈ resC2.accepted, a.identifier ∉ (["zzz"] : List String) :=
  import_ids_unique_of_fresh gInj "t"
    [["name", "phone"], ["Ana", "0791234567"], ["Bob", "0785555555"]] resC2 ["zzz"]
    gInj_injective
    (by
      intro n hmem
      simp only [List.mem_singleton] at hmem
      have h2 : List.replicate (n + 1) 'a' = ['z', 'z', 'z'] := congrArg String.toList hmem
      have h3 : 'z' ∈ List.replicate (n + 1) 'a' := by
        rw [h2]
        simp
      have h4 := List.eq_of_mem_replicate h3
      simp at h4)
    rfl

/-- Claim C3 counterexample: a one-row table with an invalid header is
rejected by the empty-file guard before the header is ever validated, so
the malformed-header error is not raised even though the header is
invalid — the unqualified "if and only if" fails. -/
theorem malformed_header_not_raised_on_short_table :
    validateHeaders ["Name", "Email"] = false ∧
    processFile gConst "t" [["Name", "Email"]] = .error .emptyFile ∧
    processFile gConst "t" [["Name", "Email"]] ≠ .error .malformedHeader := by
  refine ⟨by decide, rfl, ?_⟩
  intro hcontra
  rw [show processFile gConst "t" [["Name", "Email"]] = .error .emptyFile from rfl] at hcontra
  simp at hcontra

/-- Claim C3 (amended): for a parsed table with at least two rows, the
importing run fails with the malformed-header error (and hence accepts nothing
and processes no row) exactly when the header row is not two cells that,
lowercased and trimmed, include "name" and "phone"; the headers
`["Phone","Name"]` and `["name","phone"]` pass and `["Name","Email"]`
fails.  (A table with fewer than two rows hits the empty-file guard
first, so the original unqualified "if and only if" fails; see the
counterexample.) -/
theorem malformed_header_iff_of_two_rows (g : Nat → String) (now : String)
    (rawData : List (List String)) (h : 2 ≤ rawData.length) :
    (processFile g now rawData = .error .malformedHeader
      ↔ validateHeaders (rawData.headD []) = false) ∧
    validateHeaders ["Phone", "Name"] = true ∧
    validateHeaders ["name", "phone"] = true ∧
    validateHeaders ["Name", "Email"] = false := by
  refine ⟨?_, by decide, by decide, by decide⟩
  unfold processFile
  rw [if_neg (by omega)]
  by_cases hv : validateHeaders (rawData.headD []) = true
  · have hneg : ¬((!validateHeaders (rawData.headD [])) = true) := by
      rw [hv]
      decide
    rw [if_neg hneg]
    constructor
    · intro hcontra
      simp at hcontra
    · intro hcontra
      rw [hv] at hcontra
      simp at hcontra
  · have hv2 : validateHeaders (rawData.headD []) = false := by
      revert hv
      cases validateHeaders (rawData.headD []) <;> simp
    have hpos : (!validateHeaders (rawData.headD [])) = true := by
      rw [hv2]
      decide
    rw [if_pos hpos]
    constructor
    · intro _
      exact hv2
    · intro _
      rfl

theorem malformed_header_iff_of_two_rows_witness :
    (2 ≤ ([["Name", "Email"], ["Ana", "0791234567"]] : List (List String)).length) ∧
    processFile gConst "t" [["Name", "Email"], ["Ana", "0791234567"]] = .error .malformedHeader :=
  ⟨by decide,
    (malformed_header_iff_of_two_rows gConst "t" [["Name", "Email"], ["Ana", "0791234567"]]
      (by decide)).1.mpr (by decide)⟩

/-- Claim C10: a parsed table with fewer than two rows — in particular a
table whose only row is a valid header — makes the import abort with the
empty-file error before the header is validated and accept nothing, and a
successful import implies the table had at least one data row. -/
theorem short_table_aborts (g : Nat → String) (now : String)
    (rawData : List (List String)) :
    (rawData.length < 2 → processFile g now rawData = .error .emptyFile) ∧
    (∀ res, processFile g now rawData = .ok res → 1 ≤ rawData.tail.length) := by
  constructor
  · intro h
    unfold processFile
    rw [if_pos h]
  · intro res h
    unfold processFile at h
    split_ifs at h with h1 h2
    simp only [List.length_tail]
    omega

theorem short_table_aborts_witness :
    (([["name", "phone"]] : List (List String)).length < 2) ∧
    processFile gConst "t" [["name", "phone"]] = .error .emptyFile :=
  ⟨by decide, (short_table_aborts gConst "t" [["name", "phone"]]).1 (by decide)⟩

/-- Claim C4 counterexample: two identical rows whose phone cell is empty
have equal normalized keys, yet the second is not discarded as a
duplicate — the loop checks for duplicates only when both cells are
non-empty, so both rows go through validation and `duplicatesRemoved`
stays 0 while two phone errors are recorded. -/
theorem duplicate_key_empty_phone_not_discarded :
    contactKey "Ana" "" = contactKey "Ana" "" ∧
    processFile gConst "t" [["Name", "Phone"], ["Ana", ""], ["Ana", ""]]
      = .ok (okOr emptyResult
          (processFile gConst "t" [["Name", "Phone"], ["Ana", ""], ["Ana", ""]])) ∧
    (okOr emptyResult
        (processFile gConst "t" [["Name", "Phone"], ["Ana", ""], ["Ana", ""]])).duplicatesRemoved
      = 0 ∧
    (okOr emptyResult
        (processFile gConst "t" [["Name", "Phone"], ["Ana", ""], ["Ana", ""]])).errors.length
      = 2 :=
  ⟨rfl, rfl, rfl, rfl⟩

/-- Claim C4 (amended): a data row whose name and phone cells are both
non-empty and whose normalized key (lowercase-trimmed name joined with the
normalized phone) was recorded for an earlier row is discarded — the
duplicate counter is incremented and nothing else changes, so the row
never reaches field validation (first occurrence wins; rows with an empty
cell bypass the duplicate check, see the counterexample); and the concrete
example `[["Name","Phone"],["Ana","0791234567"],["Ana","962791234567"]]`
accepts row 2 with phone "962791234567" and discards row 3, giving
`duplicatesRemoved = 1` and one accepted row. -/
theorem duplicate_row_discarded (g : Nat → String) (now : String) (st : RowState)
    (k : Nat) (row : List String)
    (hb : isBlankRow row = false)
    (ht : cellAt row 0 ≠ "" ∧ cellAt row 1 ≠ "")
    (hseen : st.seen.contains (contactKey (cellAt row 0) (cellAt row 1)) = true) :
    processRow g now st k row = { st with duplicates := st.duplicates + 1 } ∧
    (processRow g now st k row).errors = st.errors ∧
    (processRow g now st k row).valid = st.valid ∧
    (okOr emptyResult (processFile gConst "t"
        [["Name", "Phone"], ["Ana", "0791234567"], ["Ana", "962791234567"]])).accepted.map
      (fun a => a.phone) = ["962791234567"] ∧
    (okOr emptyResult (processFile gConst "t"
        [["Name", "Phone"], ["Ana", "0791234567"], ["Ana", "962791234567"]])).duplicatesRemoved
      = 1 ∧
    (okOr emptyResult (processFile gConst "t"
        [["Name", "Phone"], ["Ana", "0791234567"], ["Ana", "962791234567"]])).accepted.length
      = 1 := by
  have heq := @processRow_eq_of_dup g now st k row hb ht hseen
  exact ⟨heq, by rw [heq], by rw [heq], rfl, rfl, rfl⟩

theorem duplicate_row_discarded_witness :
    isBlankRow ["Ana", "0791234567"] = false ∧
    (cellAt ["Ana", "0791234567"] 0 ≠ "" ∧ cellAt ["Ana", "0791234567"] 1 ≠ "") ∧
    (RowState.mk [contactKey "Ana" "0791234567"] 0 [] []).seen.contains
      (contactKey (cellAt ["Ana", "0791234567"] 0) (cellAt ["Ana", "0791234567"] 1)) = true ∧
    processRow gConst "t" (RowState.mk [contactKey "Ana" "0791234567"] 0 [] []) 3
        ["Ana", "0791234567"]
      = { RowState.mk [contactKey "Ana" "0791234567"] 0 [] [] with duplicates := 1 } :=
  ⟨by decide, ⟨by decide, by decide⟩, by decide,
    (duplicate_row_discarded gConst "t" (RowState.mk [contactKey "Ana" "0791234567"] 0 [] []) 3
      ["Ana", "0791234567"] (by decide) ⟨by decide, by decide⟩ (by decide)).1⟩

/-- Claim C6: a non-blank row that is not discarded as a duplicate and
fails both field checks contributes exactly two `ValidationError`s — one
for the name field and one for the phone field — and no accepted record;
concretely, the row `["","123"]` yields a name-required error and a
phone-format error and zero accepted records. -/
theorem row_failing_both_checks_two_errors (g : Nat → String) (now : String)
    (st : RowState) (k : Nat) (row : List String)
    (hb : isBlankRow row = false)
    (hnd : ¬(cellAt row 0 ≠ "" ∧ cellAt row 1 ≠ ""
        ∧ st.seen.contains (contactKey (cellAt row 0) (cellAt row 1)) = true))
    (hn : validateName (cellAt row 0) = false)
    (hp : validatePhoneNumber (cellAt row 1) = false) :
    (processRow g now st k row).errors
      = st.errors ++ [mkNameError k (cellAt row 0), mkPhoneError k (cellAt row 1)] ∧
    (processRow g now st k row).valid = st.valid ∧
    (mkNameError k (cellAt row 0)).field = "name" ∧
    (mkPhoneError k (cellAt row 1)).field = "phone" ∧
    (okOr emptyResult (processFile gConst "t" [["name", "phone"], ["", "123"]])).errors.map
      (fun e => (e.field, e.error))
      = [("name", "Name is required"), ("phone", "Phone number must be in valid format (10-15 digits)")] ∧
    (okOr emptyResult (processFile gConst "t" [["name", "phone"], ["", "123"]])).accepted = [] := by
  have hv2 : (validateName (cellAt row 0) && validatePhoneNumber (cellAt row 1)) = false := by
    rw [hn, hp]
    decide
  have herr : ∀ st2 : RowState, validatePart g now st2 k (cellAt row 0) (cellAt row 1)
      = { st2 with errors := st2.errors ++ [mkNameError k (cellAt row 0), mkPhoneError k (cellAt row 1)] } := by
    intro st2
    rw [validatePart_errored hv2, hn, hp]
    simp
  by_cases ht : cellAt row 0 ≠ "" ∧ cellAt row 1 ≠ ""
  · have hc2 : st.seen.contains (contactKey (cellAt row 0) (cellAt row 1)) = false := by
      by_contra hcc
      have : st.seen.contains (contactKey (cellAt row 0) (cellAt row 1)) = true := by
        revert hcc
        cases st.seen.contains (contactKey (cellAt row 0) (cellAt row 1)) <;> simp
      exact hnd ⟨ht.1, ht.2, this⟩
    rw [processRow_eq_of_fresh hb ht hc2, herr]
    exact ⟨rfl, rfl, rfl, rfl, rfl, rfl⟩
  · rw [processRow_eq_of_falsy hb ht, herr]
    exact ⟨rfl, rfl, rfl, rfl, rfl, rfl⟩

theorem row_failing_both_checks_two_errors_witness :
    isBlankRow ["", "123"] = false ∧
    validateName (cellAt ["", "123"] 0) = false ∧
    validatePhoneNumber (cellAt ["", "123"] 1) = false ∧
    (processRow gConst "t" (RowState.mk [] 0 [] []) 2 ["", "123"]).errors
      = [mkNameError 2 (cellAt ["", "123"] 0), mkPhoneError 2 (cellAt ["", "123"] 1)] :=
  ⟨by decide, by decide, by decide, by
    rw [(row_failing_both_checks_two_errors gConst "t" (RowState.mk [] 0 [] []) 2 ["", "123"]
      (by decide) (by decide) (by decide) (by decide)).1]
    rfl⟩

/-- The audience update performed by `handleBulkStop`: replace the status
of every selected record with "Stopped", leave the rest alone. -/
def handleBulkStop (selected : List String) (data : List AudienceData) : List AudienceData :=
  data.map (fun item =>
    if selected.contains item.identifier then { item with status := "Stopped" } else item)

lemma handleBulkStop_cons (selected : List String) (a : AudienceData)
    (as : List AudienceData) :
    handleBulkStop selected (a :: as)
      = (if selected.contains a.identifier then { a with status := "Stopped" } else a)
          :: handleBulkStop selected as := rfl

/-- A throwaway record used only as the `getD` fallback. -/
def noContact : AudienceData := ⟨"", "", "", "", "", "", ""⟩

/-- Claim C7: bulk stop replaces exactly the status of the selected
records — at every position, a selected record keeps its identifier,
name, phone, creation time, tries and result and gets status "Stopped",
while a non-selected record is entirely unchanged; the audience length is
preserved. -/
theorem bulk_stop_exact_frame (selected : List String) (data : List AudienceData)
    (i : Nat) (h : i < data.length) :
    (handleBulkStop selected data).length = data.length ∧
    (selected.contains (data.getD i noContact).identifier = true →
      ((handleBulkStop selected data).getD i noContact).status = "Stopped" ∧
      ((handleBulkStop selected data).getD i noContact).identifier
        = (data.getD i noContact).identifier ∧
      ((handleBulkStop selected data).getD i noContact).name = (data.getD i noContact).name ∧
      ((handleBulkStop selected data).getD i noContact).phone = (data.getD i noContact).phone ∧
      ((handleBulkStop selected data).getD i noContact).createdAt
        = (data.getD i noContact).createdAt ∧
      ((handleBulkStop selected data).getD i noContact).tries = (data.getD i noContact).tries ∧
      ((handleBulkStop selected data).getD i noContact).result
        = (data.getD i noContact).result) ∧
    (selected.contains (data.getD i noContact).identifier = false →
      (handleBulkStop selected data).getD i noContact = data.getD i noContact) := by
  induction data generalizing i with
  | nil => exact absurd h (by simp)
  | cons a as ih =>
    refine ⟨by simp [handleBulkStop], ?_, ?_⟩
    · intro hcsel
      cases i with
      | zero =>
        rw [List.getD_cons_zero] at hcsel
        rw [handleBulkStop_cons, List.getD_cons_zero, List.getD_cons_zero, if_pos hcsel]
        exact ⟨rfl, rfl, rfl, rfl, rfl, rfl, rfl⟩
      | succ n =>
        have hlen : n < as.length := by simpa using h
        rw [List.getD_cons_succ] at hcsel
        rw [handleBulkStop_cons, List.getD_cons_succ, List.getD_cons_succ]
        exact (ih n hlen).2.1 hcsel
    · intro hcsel
      cases i with
      | zero =>
        rw [List.getD_cons_zero] at hcsel
        rw [handleBulkStop_cons, List.getD_cons_zero, List.getD_cons_zero,
          if_neg (by rw [hcsel]; decide)]
      | succ n =>
        have hlen : n < as.length := by simpa using h
        rw [List.getD_cons_succ] at hcsel
        rw [handleBulkStop_cons, List.getD_cons_succ, List.getD_cons_succ]
        exact (ih n hlen).2.2 hcsel

/-- A two-record audience for the bulk-stop witness. -/
def dataC7 : List AudienceData :=
  [⟨"idA", "Ana", "962791234567", "t", "Pending", "0", ""⟩,
   ⟨"idB", "Bob", "962785555555", "t", "Serviced", "1", ""⟩]

theorem bulk_stop_exact_frame_witness :
    (0 < dataC7.length) ∧
    (["idA"] : List String).contains (dataC7.getD 0 noContact).identifier = true ∧
    ((handleBulkStop ["idA"] dataC7).getD 0 noContact).status = "Stopped" ∧
    (handleBulkStop ["idA"] dataC7).length = dataC7.length :=
  ⟨by decide, by decide,
    ((bulk_stop_exact_frame ["idA"] dataC7 0 (by decide)).2.1 (by decide)).1,
    (bulk_stop_exact_frame ["idA"] dataC7 0 (by decide)).1⟩

/-- The optimistic update of `handleStopContact`: records matching the
the identifier of the target are replaced by the stopped copy of the target. -/
def stopContactOptimistic (contact : AudienceData) (data : List AudienceData) :
    List AudienceData :=
  data.map (fun item =>
    if item.identifier = contact.identifier then { contact with status := "Stopped" } else item)

/-- The rollback `handleStopContact` performs in its catch branch: records
matching the identifier of the target are replaced by the pre-mutation
snapshot `originalContact = { ...contact }`. -/
def stopContactRevert (contact : AudienceData) (data : List AudienceData) :
    List AudienceData :=
  data.map (fun item => if item.identifier = contact.identifier then contact else item)

/-- The net effect of `handleStopContact` when the simulated remote call
fails: optimistic update followed by rollback. -/
def stopContactFailed (contact : AudienceData) (data : List AudienceData) :
    List AudienceData :=
  stopContactRevert contact (stopContactOptimistic contact data)

/-- Claim C8: when the simulated remote call fails, the rollback restores
exactly the targeted record (matched by identifier) to its pre-mutation
snapshot and leaves every other record as it was, so — provided the
snapshot argument is the record the audience holds under that identifier — the
failed operation is atomic: the final audience equals the pre-mutation
audience. -/
theorem stop_contact_rollback_restores (contact : AudienceData) (data : List AudienceData)
    (h : ∀ x ∈ data, x.identifier = contact.identifier → x = contact) :
    stopContactFailed contact data = data := by
  induction data with
  | nil => rfl
  | cons a as ih =>
    have htail := ih (fun x hx hid2 => h x (List.mem_cons_of_mem a hx) hid2)
    have hhead : (if (if a.identifier = contact.identifier
            then { contact with status := "Stopped" } else a).identifier = contact.identifier
          then contact
          else if a.identifier = contact.identifier
            then { contact with status := "Stopped" } else a) = a := by
      by_cases hid : a.identifier = contact.identifier
      · rw [if_pos hid]
        have hsame : ({ contact with status := "Stopped" } : AudienceData).identifier
            = contact.identifier := rfl
        rw [if_pos hsame]
        exact (h a (List.mem_cons_self a as) hid).symm
      · rw [if_neg hid, if_neg hid]
    unfold stopContactFailed stopContactRevert stopContactOptimistic at htail ⊢
    simp only [List.map_cons]
    rw [hhead, htail]

/-- The target record for the rollback witness. -/
def contactC8 : AudienceData := ⟨"id1", "Ana", "962791234567", "t", "Pending", "0", ""⟩

/-- A two-record audience containing the rollback target. -/
def dataC8 : List AudienceData :=
  [contactC8, ⟨"id2", "Bob", "962785555555", "t", "Serviced", "1", ""⟩]

theorem stop_contact_rollback_restores_witness :
    (∀ x ∈ dataC8, x.identifier = contactC8.identifier → x = contactC8) ∧
    stopContactFailed contactC8 dataC8 = dataC8 :=
  ⟨by decide, stop_contact_rollback_restores contactC8 dataC8 (by decide)⟩

/-- The fixed sample table emitted by `downloadSampleFile`. -/
def sampleData : List (List String) :=
  [["Name", "Phone number"],
   ["Fouad", "97123456789"],
   ["David", "97123344567"],
   ["Ali", "96623344555"],
   ["John", "+12345678910"]]

/-- Claim C9 evaluated on the code: the header row of the generated sample
file is `["Name", "Phone number"]`, and `validateHeaders` rejects it —
the second cell normalizes to "phone number", not "phone" — so the sample
file would NOT pass the header check of the import, contradicting the
documented purpose of the sample file: showing the expected import shape. -/
theorem sample_header_rejected :
    sampleData.headD [] = ["Name", "Phone number"] ∧
    validateHeaders (sampleData.headD []) = false :=
  ⟨rfl, by decide⟩
